import Mathlib

/-!
Shallow embedding of the messaging/conversation subsystem of the tutoring
marketplace application (conversation resolver, message store, live update
channel, inbox aggregation) together with the connect-payment fee split.

Identifiers and timestamps are modelled as `Nat`; the relational store is a
pair of row lists kept in insertion order; the store's `order` primitive is
modelled as a stable insertion sort on the requested column; monetary
amounts in the payment handler are modelled as exact rationals with
`Math.round` as round-half-up.
-/

namespace OxbridgePrep

/-- Role tag on a message: which side of the conversation authored it
(`sender_type` column). -/
inductive SenderType where
  | client
  | tutor
deriving DecidableEq

/-- A row of the `messages` table (src/unnamed/part_001, interface `Message`). -/
structure Message where
  id : Nat
  content : String
  sender_type : SenderType
  created_at : Nat
  conversation_id : Nat
deriving DecidableEq

/-- A row of the `conversations` table (src/unnamed/part_001, interface
`Conversation`, plus the `client_id` column the queries filter on). -/
structure Conversation where
  id : Nat
  client_id : Nat
  tutor_id : Nat
  tutor_name : String
  client_name : String
  client_email : String
  created_at : Nat
  updated_at : Nat
deriving DecidableEq

/-- The relational store: the two tables, each list in insertion order. -/
structure Store where
  conversations : List Conversation
  messages : List Message
deriving DecidableEq

/-- Messages of one conversation, in insertion order (the
`eq('conversation_id', ...)` filter). -/
def msgsFor (st : Store) (cid : Nat) : List Message :=
  st.messages.filter (fun m => decide (m.conversation_id = cid))

/-- Conversation rows matching a (client, tutor) pair. -/
def rowsForPair (st : Store) (clientId tutorId : Nat) : List Conversation :=
  st.conversations.filter
    (fun c => decide (c.client_id = clientId) && decide (c.tutor_id = tutorId))

/-! ## Conversation resolver (initializeConversation, src/unnamed/part_001 lines 33-79)

The hook first reads the store (`maybeSingle` on the pair), awaits, and then —
if the read returned nothing — performs a plain `insert` with no conflict
handling. The read and the write are separate awaited store operations, so a
concurrent resolver for the same pair may interleave between them. -/

/-- The check step: `maybeSingle` on `client_id = clientId, tutor_id = tutorId`. -/
def findConversation (st : Store) (clientId tutorId : Nat) : Option Conversation :=
  st.conversations.find?
    (fun c => decide (c.client_id = clientId) && decide (c.tutor_id = tutorId))

/-- The insert step: a plain `insert` of a fresh conversation row (no
on-conflict clause). -/
def insertConversation (st : Store) (clientId tutorId fresh now : Nat)
    (tutorName clientName clientEmail : String) : Store × Conversation :=
  let c : Conversation :=
    { id := fresh, client_id := clientId, tutor_id := tutorId,
      tutor_name := tutorName, client_name := clientName,
      client_email := clientEmail, created_at := now, updated_at := now }
  ({ st with conversations := st.conversations ++ [c] }, c)

/-- One whole `initializeConversation` call run without interleaving:
check, then insert only when the check found nothing. -/
def initializeConversation (st : Store) (clientId tutorId fresh now : Nat)
    (tutorName clientName clientEmail : String) : Store × Conversation :=
  match findConversation st clientId tutorId with
  | some c => (st, c)
  | none => insertConversation st clientId tutorId fresh now tutorName clientName clientEmail

/-- The second half of `initializeConversation`, acting on a check result that
was read earlier (possibly from a stale state): this is what runs after the
`await` of the `maybeSingle` query. -/
def resolveAct (checkResult : Option Conversation) (st : Store)
    (clientId tutorId fresh now : Nat)
    (tutorName clientName clientEmail : String) : Store :=
  match checkResult with
  | some _ => st
  | none => (insertConversation st clientId tutorId fresh now tutorName clientName clientEmail).1

/-- Two concurrent `initializeConversation` calls for the same pair, scheduled
check-check-act-act (both tabs pass the existence check before either insert
lands): an interleaving the code's two separate awaited store operations admit. -/
def raceTwoResolvers (st : Store) (clientId tutorId : Nat) : Store :=
  let r1 := findConversation st clientId tutorId
  let r2 := findConversation st clientId tutorId
  let st1 := resolveAct r1 st clientId tutorId 100 1 "T" "A" "a@example.com"
  resolveAct r2 st1 clientId tutorId 101 2 "T" "A" "a@example.com"

/-! ## Message store: send paths -/

/-- JavaScript `String.prototype.trim` over the string's character list
(whitespace here is ASCII whitespace, the cases relevant to the spec):
drop leading and trailing whitespace characters. -/
def trim (s : String) : String :=
  String.mk (((s.data.dropWhile Char.isWhitespace).reverse.dropWhile Char.isWhitespace).reverse)

/-- Outcome of a send call: the guard's silent early return, a successful
insert, or a store failure surfaced by the catch block. -/
inductive SendOutcome where
  | earlyReturn
  | sent (m : Message)
deriving DecidableEq

/-- sendMessage (src/unnamed/part_001 lines 104-133): the client-side append.
Guard `!conversation || !user || !content.trim()` returns before any write;
otherwise one `messages` insert with `sender_type: 'client'`. No update of the
parent conversation row is performed on this path. -/
def sendMessage (conversation : Option Conversation) (user : Option Nat)
    (content : String) (st : Store) (fresh now : Nat) : SendOutcome × Store :=
  match conversation, user with
  | some c, some _ =>
    if trim content = "" then (SendOutcome.earlyReturn, st)
    else
      let m : Message :=
        { id := fresh, content := trim content, sender_type := SenderType.client,
          created_at := now, conversation_id := c.id }
      (SendOutcome.sent m, { st with messages := st.messages ++ [m] })
  | _, _ => (SendOutcome.earlyReturn, st)

/-- Set `updated_at := now` on the conversation row with the given id (the
`update({ updated_at }).eq('id', ...)` call in sendReply). -/
def bumpUpdatedAt (st : Store) (cid now : Nat) : Store :=
  { st with
    conversations :=
      st.conversations.map
        (fun c => if c.id = cid then { c with updated_at := now } else c) }

/-- sendReply (Inbox component, create-payment/index.ts lines 380-416): the
tutor-side append. Guard `!selectedConversation || !newMessage.trim() || sending`
returns before any write; otherwise one `messages` insert with
`sender_type: 'tutor'`, followed by a best-effort `updated_at` bump whose
error result the code ignores — `updateFails` models that call failing. -/
def sendReply (selectedConversation : Option Conversation) (sending : Bool)
    (newMessage : String) (st : Store) (fresh now : Nat)
    (updateFails : Bool) : SendOutcome × Store :=
  match selectedConversation with
  | none => (SendOutcome.earlyReturn, st)
  | some c =>
    if trim newMessage = "" then (SendOutcome.earlyReturn, st)
    else if sending then (SendOutcome.earlyReturn, st)
    else
      let m : Message :=
        { id := fresh, content := trim newMessage, sender_type := SenderType.tutor,
          created_at := now, conversation_id := c.id }
      let st1 : Store := { st with messages := st.messages ++ [m] }
      (SendOutcome.sent m, if updateFails then st1 else bumpUpdatedAt st1 c.id now)

/-! ## Message store: read paths

The store's `.order('created_at', { ascending: true })` is modelled as a
stable insertion sort: ties keep the rows' insertion order. -/

/-- Insert a message into a list already sorted ascending by `created_at`,
before the first element whose `created_at` is not smaller — so, among equal
timestamps, an earlier-inserted row stays first. -/
def insertByCreatedAt (m : Message) : List Message → List Message
  | [] => [m]
  | n :: ns =>
    if n.created_at < m.created_at then n :: insertByCreatedAt m ns
    else m :: n :: ns

/-- Stable sort of a message list ascending by `created_at`. -/
def orderByCreatedAt : List Message → List Message
  | [] => []
  | m :: ms => insertByCreatedAt m (orderByCreatedAt ms)

/-- loadMessages (src/unnamed/part_001 lines 82-101, and the identical copy in
the Inbox component): select the conversation's messages ordered ascending by
`created_at`; `data || []` yields an empty list when there are no rows. -/
def loadMessages (st : Store) (conversationId : Nat) : List Message :=
  orderByCreatedAt (msgsFor st conversationId)

/-! ## Inbox aggregation (loadConversations, create-payment/index.ts lines 311-354) -/

/-- The three message columns the inbox query embeds
(`messages!inner(content, sender_type, created_at)`). -/
structure MessagePreview where
  content : String
  sender_type : SenderType
  created_at : Nat
deriving DecidableEq

/-- Project a message row onto the embedded columns. -/
def toPreview (m : Message) : MessagePreview :=
  { content := m.content, sender_type := m.sender_type, created_at := m.created_at }

/-- One element of the processed inbox list: the conversation row plus
`last_message` and `unread_count` computed client-side. -/
structure ConversationSummary where
  convo : Conversation
  last_message : Option MessagePreview
  unread_count : Nat
deriving DecidableEq

/-- Insert a conversation into a list already sorted descending by
`updated_at`, before the first element whose `updated_at` is not larger —
stable, as for messages. -/
def insertByUpdatedAtDesc (c : Conversation) : List Conversation → List Conversation
  | [] => [c]
  | d :: ds =>
    if c.updated_at < d.updated_at then d :: insertByUpdatedAtDesc c ds
    else c :: d :: ds

/-- Stable sort of a conversation list descending by `updated_at`
(the query's `.order('updated_at', { ascending: false })`). -/
def orderByUpdatedAtDesc : List Conversation → List Conversation
  | [] => []
  | c :: cs => insertByUpdatedAtDesc c (orderByUpdatedAtDesc cs)

/-- Per-conversation post-processing in loadConversations: `last_message` is
the final embedded row when any exists, `unread_count` counts embedded rows
with `sender_type === 'client'` (clamped by `unreadCount > 0 ? unreadCount : 0`). -/
def summarize (st : Store) (c : Conversation) : ConversationSummary :=
  let conversationMessages := msgsFor st c.id
  let lastMessage := conversationMessages.getLast?.map toPreview
  let unreadCount :=
    (conversationMessages.filter (fun m => decide (m.sender_type = SenderType.client))).length
  { convo := c, last_message := lastMessage,
    unread_count := if unreadCount > 0 then unreadCount else 0 }

/-- loadConversations: conversations with `tutor_id = userId`, restricted by the
inner join to those owning at least one message row, ordered descending by
`updated_at`, then mapped to summaries. -/
def loadConversations (st : Store) (userId : Nat) : List ConversationSummary :=
  let convos :=
    (st.conversations.filter (fun c => decide (c.tutor_id = userId))).filter
      (fun c => !(msgsFor st c.id).isEmpty)
  (orderByUpdatedAtDesc convos).map (summarize st)

/-! ## Live update channel

The realtime wiring in useChat (src/unnamed/part_001 lines 136-163) and in the
Inbox component: a channel subscribed with filter
`conversation_id=eq.<id>` whose callback fires once per inserted `messages`
row matching the filter, and which `supabase.removeChannel` deactivates.

Modelled from the spec: the collaborator's subscribe-to-insert primitive
(§6, "A subscribe-to-insert primitive filterable by conversation_id, yielding
newly inserted messages rows") is not itself repository code; its delivery —
each accepted insert invokes every active matching callback exactly once, in
insert order — is taken from the spec's channel contract. -/

/-- A live channel handle: subscriber id and the conversation filter it was
opened with. -/
structure Subscriber where
  id : Nat
  conversation_id : Nat
deriving DecidableEq

/-- Channel-layer state: the store, the active channels, and the log of
callback invocations `(subscriber id, delivered message)` in delivery order. -/
structure ChannelState where
  store : Store
  subs : List Subscriber
  delivered : List (Nat × Message)
deriving DecidableEq

/-- Open a channel for a conversation (the `.channel(...).on('postgres_changes',
{ filter: conversation_id=eq.cid }, cb).subscribe()` call). -/
def subscribeChannel (cs : ChannelState) (sid cid : Nat) : ChannelState :=
  { cs with subs := cs.subs ++ [{ id := sid, conversation_id := cid }] }

/-- Release a channel handle (the `supabase.removeChannel` cleanup): the
subscriber stops being active; past deliveries remain logged. -/
def removeChannel (cs : ChannelState) (sid : Nat) : ChannelState :=
  { cs with subs := cs.subs.filter (fun s => !decide (s.id = sid)) }

/-- Deliver one inserted row: every active channel whose filter matches the
row's `conversation_id` has its callback invoked once, in subscription order. -/
def deliverInsert (cs : ChannelState) (m : Message) : ChannelState :=
  { cs with
    delivered :=
      cs.delivered ++
        (cs.subs.filter (fun s => decide (s.conversation_id = m.conversation_id))).map
          (fun s => (s.id, m)) }

/-- An append observed through the channel layer: the `messages` insert
followed by realtime delivery of the new row. -/
def appendMessage (cs : ChannelState) (cid : Nat) (content : String)
    (sender : SenderType) (fresh now : Nat) : ChannelState :=
  let m : Message :=
    { id := fresh, content := content, sender_type := sender,
      created_at := now, conversation_id := cid }
  deliverInsert
    { cs with store := { cs.store with messages := cs.store.messages ++ [m] } } m

/-- The sequence of messages delivered to one subscriber's callback, in
delivery order. -/
def deliveredTo (cs : ChannelState) (sid : Nat) : List Message :=
  (cs.delivered.filter (fun p => decide (p.1 = sid))).map Prod.snd

/-! ## Connect-payment fee split (create-payment/index.ts lines 126-137 and 192-206)

Amounts are exact rationals; `Math.round` is round-half-up. -/

/-- The 15% platform fee share. -/
def platformFeePercent : ℚ := 15 / 100

/-- JavaScript `Math.round`: half-integers round up. -/
def jsRound (x : ℚ) : ℤ := ⌊x + 1 / 2⌋

/-- `tutorAmount = Math.round(hourlyRate * lessonQuantity * 100 * (1 - platformFeePercent))`. -/
def tutorAmount (hourlyRate : ℚ) (lessonQuantity : ℕ) : ℤ :=
  jsRound (hourlyRate * lessonQuantity * 100 * (1 - platformFeePercent))

/-- `platformFee = Math.round(hourlyRate * lessonQuantity * 100 * platformFeePercent)`. -/
def platformFee (hourlyRate : ℚ) (lessonQuantity : ℕ) : ℤ :=
  jsRound (hourlyRate * lessonQuantity * 100 * platformFeePercent)

/-- `totalAmount = tutorAmount + platformFee`. -/
def totalAmount (hourlyRate : ℚ) (lessonQuantity : ℕ) : ℤ :=
  tutorAmount hourlyRate lessonQuantity + platformFee hourlyRate lessonQuantity

/-- The monetary columns of the `payments` insert in the connect handler. -/
structure PaymentRecord where
  amount : ℤ
  platform_fee : ℤ
  tutor_amount : ℤ
deriving DecidableEq

/-- The `payments` row the handler stores: `amount: totalAmount,
platform_fee: platformFee, tutor_amount: tutorAmount`. -/
def paymentsInsert (hourlyRate : ℚ) (lessonQuantity : ℕ) : PaymentRecord :=
  { amount := totalAmount hourlyRate lessonQuantity,
    platform_fee := platformFee hourlyRate lessonQuantity,
    tutor_amount := tutorAmount hourlyRate lessonQuantity }

/-! ## Helper lemmas on the sort primitives -/

theorem insertByCreatedAt_perm (m : Message) (l : List Message) :
    (insertByCreatedAt m l).Perm (m :: l) := by
  induction l with
  | nil => simp [insertByCreatedAt]
  | cons n ns ih =>
    simp only [insertByCreatedAt]
    by_cases h : n.created_at < m.created_at
    · rw [if_pos h]
      exact (ih.cons n).trans (List.Perm.swap m n ns)
    · rw [if_neg h]

theorem orderByCreatedAt_perm (l : List Message) :
    (orderByCreatedAt l).Perm l := by
  induction l with
  | nil => simp [orderByCreatedAt]
  | cons m ms ih =>
    exact (insertByCreatedAt_perm m (orderByCreatedAt ms)).trans (ih.cons m)

theorem insertByCreatedAt_pairwise (m : Message) (l : List Message)
    (h : l.Pairwise (fun a b => a.created_at ≤ b.created_at)) :
    (insertByCreatedAt m l).Pairwise (fun a b => a.created_at ≤ b.created_at) := by
  induction l with
  | nil => simp [insertByCreatedAt]
  | cons n ns ih =>
    rcases List.pairwise_cons.mp h with ⟨hn, hns⟩
    simp only [insertByCreatedAt]
    by_cases hlt : n.created_at < m.created_at
    · rw [if_pos hlt]
      refine List.pairwise_cons.mpr ⟨?_, ih hns⟩
      intro x hx
      rcases List.mem_cons.mp ((insertByCreatedAt_perm m ns).mem_iff.mp hx) with rfl | hx'
      · exact Nat.le_of_lt hlt
      · exact hn x hx'
    · rw [if_neg hlt]
      refine List.pairwise_cons.mpr ⟨?_, h⟩
      intro x hx
      rcases List.mem_cons.mp hx with rfl | hx'
      · exact Nat.le_of_not_lt hlt
      · exact Nat.le_trans (Nat.le_of_not_lt hlt) (hn x hx')

theorem orderByCreatedAt_pairwise (l : List Message) :
    (orderByCreatedAt l).Pairwise (fun a b => a.created_at ≤ b.created_at) := by
  induction l with
  | nil => simp [orderByCreatedAt]
  | cons m ms ih => exact insertByCreatedAt_pairwise m _ ih

theorem orderByCreatedAt_of_pairwise (l : List Message)
    (h : l.Pairwise (fun a b => a.created_at ≤ b.created_at)) :
    orderByCreatedAt l = l := by
  induction l with
  | nil => rfl
  | cons m ms ih =>
    rcases List.pairwise_cons.mp h with ⟨hm, hms⟩
    simp only [orderByCreatedAt, ih hms]
    cases ms with
    | nil => rfl
    | cons n ns =>
      simp only [insertByCreatedAt]
      rw [if_neg (Nat.not_lt.mpr (hm n (List.mem_cons_self n ns)))]

theorem insertByUpdatedAtDesc_perm (c : Conversation) (l : List Conversation) :
    (insertByUpdatedAtDesc c l).Perm (c :: l) := by
  induction l with
  | nil => simp [insertByUpdatedAtDesc]
  | cons d ds ih =>
    simp only [insertByUpdatedAtDesc]
    by_cases h : c.updated_at < d.updated_at
    · rw [if_pos h]
      exact (ih.cons d).trans (List.Perm.swap c d ds)
    · rw [if_neg h]

theorem orderByUpdatedAtDesc_perm (l : List Conversation) :
    (orderByUpdatedAtDesc l).Perm l := by
  induction l with
  | nil => simp [orderByUpdatedAtDesc]
  | cons c cs ih =>
    exact (insertByUpdatedAtDesc_perm c (orderByUpdatedAtDesc cs)).trans (ih.cons c)

theorem insertByUpdatedAtDesc_pairwise (c : Conversation) (l : List Conversation)
    (h : l.Pairwise (fun a b => b.updated_at ≤ a.updated_at)) :
    (insertByUpdatedAtDesc c l).Pairwise (fun a b => b.updated_at ≤ a.updated_at) := by
  induction l with
  | nil => simp [insertByUpdatedAtDesc]
  | cons d ds ih =>
    rcases List.pairwise_cons.mp h with ⟨hd, hds⟩
    simp only [insertByUpdatedAtDesc]
    by_cases hlt : c.updated_at < d.updated_at
    · rw [if_pos hlt]
      refine List.pairwise_cons.mpr ⟨?_, ih hds⟩
      intro x hx
      rcases List.mem_cons.mp ((insertByUpdatedAtDesc_perm c ds).mem_iff.mp hx) with rfl | hx'
      · exact Nat.le_of_lt hlt
      · exact hd x hx'
    · rw [if_neg hlt]
      refine List.pairwise_cons.mpr ⟨?_, h⟩
      intro x hx
      rcases List.mem_cons.mp hx with rfl | hx'
      · exact Nat.le_of_not_lt hlt
      · exact Nat.le_trans (hd x hx') (Nat.le_of_not_lt hlt)

theorem orderByUpdatedAtDesc_pairwise (l : List Conversation) :
    (orderByUpdatedAtDesc l).Pairwise (fun a b => b.updated_at ≤ a.updated_at) := by
  induction l with
  | nil => simp [orderByUpdatedAtDesc]
  | cons c cs ih => exact insertByUpdatedAtDesc_pairwise c _ ih

/-! ## Helper lemmas on channel delivery -/

theorem filter_pair_nil (ss : List Subscriber) (sid : Nat) (m : Message)
    (h : ss.filter (fun s => decide (s.id = sid)) = []) :
    ((ss.filter (fun s => decide (s.conversation_id = m.conversation_id))).map
        (fun s => (s.id, m))).filter (fun p => decide (p.1 = sid)) = [] := by
  induction ss with
  | nil => rfl
  | cons s ss' ih =>
    by_cases hid : s.id = sid
    · rw [List.filter_cons_of_pos (by simp [hid])] at h
      exact absurd h (List.cons_ne_nil s _)
    · rw [List.filter_cons_of_neg (by simp [hid])] at h
      by_cases hc : s.conversation_id = m.conversation_id
      · rw [List.filter_cons_of_pos (by simp [hc]), List.map_cons,
          List.filter_cons_of_neg (by simp [hid])]
        exact ih h
      · rw [List.filter_cons_of_neg (by simp [hc])]
        exact ih h

theorem filter_pair_single (l : List Subscriber) (sid cid : Nat) (m : Message)
    (h : l.filter (fun s => decide (s.id = sid)) = [{ id := sid, conversation_id := cid }])
    (hm : m.conversation_id = cid) :
    ((l.filter (fun s => decide (s.conversation_id = m.conversation_id))).map
        (fun s => (s.id, m))).filter (fun p => decide (p.1 = sid)) = [(sid, m)] := by
  induction l with
  | nil => simp at h
  | cons s ss ih =>
    by_cases hid : s.id = sid
    · rw [List.filter_cons_of_pos (by simp [hid])] at h
      rcases List.cons_eq_cons.mp h with ⟨hs, hrest⟩
      have hc : s.conversation_id = m.conversation_id := by rw [hs, hm]
      rw [List.filter_cons_of_pos (by simp [hc]), List.map_cons,
        List.filter_cons_of_pos (by simp [hid]), filter_pair_nil ss sid m hrest, hid]
    · rw [List.filter_cons_of_neg (by simp [hid])] at h
      by_cases hc : s.conversation_id = m.conversation_id
      · rw [List.filter_cons_of_pos (by simp [hc]), List.map_cons,
          List.filter_cons_of_neg (by simp [hid])]
        exact ih h
      · rw [List.filter_cons_of_neg (by simp [hc])]
        exact ih h

theorem filter_not_id (l : List Subscriber) (sid : Nat) :
    (l.filter (fun s => !decide (s.id = sid))).filter (fun s => decide (s.id = sid)) = [] := by
  induction l with
  | nil => rfl
  | cons s ss ih =>
    by_cases hid : s.id = sid
    · rw [List.filter_cons_of_neg (by simp [hid])]
      exact ih
    · rw [List.filter_cons_of_pos (by simp [hid]), List.filter_cons_of_neg (by simp [hid])]
      exact ih

/-! ## Concrete fixtures used by witnesses -/

/-- A conversation between client 1 and tutor 2, last updated at time 5. -/
def wConv : Conversation :=
  { id := 7, client_id := 1, tutor_id := 2, tutor_name := "T", client_name := "A",
    client_email := "a@example.com", created_at := 0, updated_at := 5 }

/-- A second conversation of tutor 2, updated more recently (time 9). -/
def wConvB : Conversation :=
  { id := 8, client_id := 3, tutor_id := 2, tutor_name := "T", client_name := "B",
    client_email := "b@example.com", created_at := 0, updated_at := 9 }

/-- A conversation of tutor 2 that owns no message rows. -/
def wConvEmpty : Conversation :=
  { id := 9, client_id := 4, tutor_id := 2, tutor_name := "T", client_name := "C",
    client_email := "c@example.com", created_at := 0, updated_at := 99 }

/-- A store with the three conversations and four messages (two of them sharing
timestamp 5 in conversation 7, one in conversation 8, none in conversation 9). -/
def wStore : Store :=
  { conversations := [wConv, wConvB, wConvEmpty],
    messages :=
      [{ id := 1, content := "a", sender_type := SenderType.client, created_at := 5,
         conversation_id := 7 },
       { id := 2, content := "b", sender_type := SenderType.tutor, created_at := 5,
         conversation_id := 7 },
       { id := 3, content := "c", sender_type := SenderType.client, created_at := 3,
         conversation_id := 7 },
       { id := 4, content := "x", sender_type := SenderType.client, created_at := 9,
         conversation_id := 8 }] }

/-- A channel state with one subscriber (id 42) attached to conversation 7. -/
def wChannelSub : ChannelState :=
  { store := wStore, subs := [{ id := 42, conversation_id := 7 }], delivered := [] }

/-! ## Claims -/

/-- C1: the conversation resolver (src/unnamed/part_001 lines 39-65) is a
check-then-insert sequence — `maybeSingle` on the pair, then a plain `insert`
with no on-conflict clause — not the claimed atomic insert-or-fetch-on-conflict.
In the interleaving where two concurrent calls for the pair (1, 2) both pass
the existence check before either insert lands, the store ends with two
conversation rows for that pair, not one. -/
theorem raceTwoResolvers_two_rows :
    (rowsForPair (raceTwoResolvers { conversations := [], messages := [] } 1 2) 1 2).length
      = 2 := by decide

/-- C2: for every string whose whitespace trim is empty, both the client
append (sendMessage) and the tutor append (sendReply) hit their guard and
return before any write: the outcome is the silent early return and the store
is unchanged, so no message row is inserted. -/
theorem send_empty_content_rejected
    (conversation : Option Conversation) (user : Option Nat)
    (selected : Option Conversation) (sending updateFails : Bool)
    (content : String) (st : Store) (fresh now : Nat)
    (h : trim content = "") :
    sendMessage conversation user content st fresh now = (SendOutcome.earlyReturn, st) ∧
    sendReply selected sending content st fresh now updateFails
      = (SendOutcome.earlyReturn, st) := by
  constructor
  · cases conversation with
    | none => rfl
    | some c =>
      cases user with
      | none => rfl
      | some u => simp [sendMessage, h]
  · cases selected with
    | none => rfl
    | some c => simp [sendReply, h]

/-- C2 witness: the whitespace-only string "   " is rejected by both send
paths on the concrete store, leaving it unchanged. -/
theorem send_empty_content_rejected_witness :
    (trim "   " = "") ∧
    (sendMessage (some wConv) (some 1) "   " wStore 100 50
        = (SendOutcome.earlyReturn, wStore) ∧
     sendReply (some wConv) false "   " wStore 100 50 false
        = (SendOutcome.earlyReturn, wStore)) :=
  ⟨by decide,
   send_empty_content_rejected (some wConv) (some 1) (some wConv) false false
     "   " wStore 100 50 (by decide)⟩

/-- C3 counterexample: a successful client append at time 9 (sendMessage)
inserts the message row but leaves every conversation's updated_at unchanged —
the parent conversation keeps updated_at 5, not the append time 9 — because the
client path performs no conversation update at all. This refutes the claim's
"whether the sender is the client or the tutor". -/
theorem sendMessage_no_bump_counterexample :
    (sendMessage (some wConv) (some 1) "Hello" wStore 100 9).1
      = SendOutcome.sent
          { id := 100, content := "Hello", sender_type := SenderType.client,
            created_at := 9, conversation_id := 7 } ∧
    (sendMessage (some wConv) (some 1) "Hello" wStore 100 9).2.conversations.map
        Conversation.updated_at = [5, 9, 99] ∧
    ¬ (5 : Nat) = 9 := by decide

/-- C3 amended: on a successful tutor append (sendReply), the message row is
written and the parent conversation's updated_at is set to the append time
when the best-effort update lands; when that update fails, the conversations
table is untouched but the message row still stands (not rolled back). A
successful client append (sendMessage) never touches the conversations table. -/
theorem sendReply_best_effort_bump (st : Store) (c : Conversation) (content : String)
    (fresh now : Nat) (updateFails : Bool) (user : Option Nat)
    (h : ¬ trim content = "") :
    (sendReply (some c) false content st fresh now updateFails).1
      = SendOutcome.sent
          { id := fresh, content := trim content, sender_type := SenderType.tutor,
            created_at := now, conversation_id := c.id } ∧
    ({ id := fresh, content := trim content, sender_type := SenderType.tutor,
       created_at := now, conversation_id := c.id } : Message)
      ∈ (sendReply (some c) false content st fresh now updateFails).2.messages ∧
    (updateFails = false →
      ∀ d ∈ (sendReply (some c) false content st fresh now updateFails).2.conversations,
        d.id = c.id → d.updated_at = now) ∧
    (updateFails = true →
      (sendReply (some c) false content st fresh now updateFails).2.conversations
        = st.conversations) ∧
    (sendMessage (some c) user content st fresh now).2.conversations
      = st.conversations := by
  refine ⟨?_, ?_, ?_, ?_, ?_⟩
  · cases updateFails <;> simp [sendReply, h]
  · cases updateFails <;> simp [sendReply, h, bumpUpdatedAt]
  · intro hu d hd hdid
    subst hu
    simp only [sendReply, if_neg h, if_neg (Bool.false_ne_true ∘ id)] at hd
    simp only [Bool.false_eq_true, if_false, bumpUpdatedAt] at hd
    rcases List.mem_map.mp hd with ⟨c', _, rfl⟩
    by_cases hcc : c'.id = c.id
    · simp [hcc]
    · simp [hcc] at hdid ⊢
  · intro hu
    subst hu
    simp [sendReply, h]
  · cases user with
    | none => rfl
    | some u => simp [sendMessage, h]

/-- C3 amended witness: the concrete tutor reply "hi" at time 11 on the
fixture store, with the best-effort update succeeding. -/
theorem sendReply_best_effort_bump_witness :
    (¬ (trim "hi" = "")) ∧
    ((sendReply (some wConv) false "hi" wStore 100 11 false).1
        = SendOutcome.sent
            { id := 100, content := trim "hi", sender_type := SenderType.tutor,
              created_at := 11, conversation_id := wConv.id } ∧
     ({ id := 100, content := trim "hi", sender_type := SenderType.tutor,
        created_at := 11, conversation_id := wConv.id } : Message)
       ∈ (sendReply (some wConv) false "hi" wStore 100 11 false).2.messages ∧
     (false = false →
       ∀ d ∈ (sendReply (some wConv) false "hi" wStore 100 11 false).2.conversations,
         d.id = wConv.id → d.updated_at = 11) ∧
     (false = true →
       (sendReply (some wConv) false "hi" wStore 100 11 false).2.conversations
         = wStore.conversations) ∧
     (sendMessage (some wConv) (some 1) "hi" wStore 100 11).2.conversations
       = wStore.conversations) :=
  ⟨by decide,
   sendReply_best_effort_bump wStore wConv "hi" 100 11 false (some 1) (by decide)⟩

/-- C4: loadMessages returns the conversation's messages sorted ascending by
created_at (pairwise non-decreasing), as a permutation of exactly that
conversation's rows; when the rows' timestamps are already non-decreasing in
insertion order — as appends produce them — the output is exactly insertion
order, which is the stable tie-break; and a conversation with no messages
yields the empty list, not an error. -/
theorem loadMessages_ordered (st : Store) (cid : Nat) :
    (loadMessages st cid).Pairwise (fun a b => a.created_at ≤ b.created_at) ∧
    (loadMessages st cid).Perm (msgsFor st cid) ∧
    ((msgsFor st cid).Pairwise (fun a b => a.created_at ≤ b.created_at) →
      loadMessages st cid = msgsFor st cid) ∧
    (msgsFor st cid = [] → loadMessages st cid = []) :=
  ⟨orderByCreatedAt_pairwise (msgsFor st cid),
   orderByCreatedAt_perm (msgsFor st cid),
   fun h => orderByCreatedAt_of_pairwise (msgsFor st cid) h,
   fun h => by simp [loadMessages, h, orderByCreatedAt]⟩

/-- C4 witness: conversation 99 of the fixture store has no messages and lists
as empty; conversation 8's rows are already non-decreasing and list unchanged. -/
theorem loadMessages_ordered_witness :
    (msgsFor wStore 99 = [] ∧ loadMessages wStore 99 = []) ∧
    ((msgsFor wStore 8).Pairwise (fun a b => a.created_at ≤ b.created_at) ∧
     loadMessages wStore 8 = msgsFor wStore 8) :=
  ⟨⟨by decide, (loadMessages_ordered wStore 99).2.2.2 (by decide)⟩,
   ⟨by decide, (loadMessages_ordered wStore 8).2.2.1 (by decide)⟩⟩

/-- C5: the inbox listing is pairwise descending by updated_at: whenever one
summary precedes another in the returned sequence, the later one's updated_at
is not larger — so of two conversations the more recently updated appears
first. -/
theorem loadConversations_desc (st : Store) (userId : Nat) :
    (loadConversations st userId).Pairwise
      (fun a b => b.convo.updated_at ≤ a.convo.updated_at) := by
  unfold loadConversations
  rw [List.pairwise_map]
  exact orderByUpdatedAtDesc_pairwise _

/-- C6: every summary the inbox returns carries an unread_count equal to the
number of messages in that conversation with sender_type client — the party
other than the listing tutor — with no read state consulted. -/
theorem loadConversations_unread (st : Store) (userId : Nat) (s : ConversationSummary)
    (h : s ∈ loadConversations st userId) :
    s.unread_count
      = ((msgsFor st s.convo.id).filter
          (fun m => decide (m.sender_type = SenderType.client))).length := by
  rcases List.mem_map.mp h with ⟨c, _, rfl⟩
  show (summarize st c).unread_count
      = ((msgsFor st (summarize st c).convo.id).filter
          (fun m => decide (m.sender_type = SenderType.client))).length
  simp only [summarize]
  split
  · rfl
  · omega

/-- C6 witness: in the fixture store, tutor 2's summary of conversation 7
reports unread_count 2, the number of client-authored messages there. -/
theorem loadConversations_unread_witness :
    (summarize wStore wConv ∈ loadConversations wStore 2) ∧
    (summarize wStore wConv).unread_count
      = ((msgsFor wStore (summarize wStore wConv).convo.id).filter
          (fun m => decide (m.sender_type = SenderType.client))).length :=
  ⟨by decide, loadConversations_unread wStore 2 (summarize wStore wConv) (by decide)⟩

/-- C7: a subscriber whose handle is attached (exactly once) to a
conversation's channel before an append receives from that append exactly one
new callback invocation — its delivery sequence is extended by exactly the
appended message, whose conversation_id and content fields match the append;
since every append extends the sequence at its end, successive deliveries to
one subscriber occur in append order. -/
theorem subscriber_delivery_exactly_once (cs : ChannelState) (sid cid fresh now : Nat)
    (content : String) (sender : SenderType)
    (h : cs.subs.filter (fun s => decide (s.id = sid))
      = [{ id := sid, conversation_id := cid }]) :
    deliveredTo (appendMessage cs cid content sender fresh now) sid
      = deliveredTo cs sid ++
        [{ id := fresh, content := content, sender_type := sender,
           created_at := now, conversation_id := cid }] := by
  simp only [deliveredTo, appendMessage, deliverInsert, List.filter_append,
    List.map_append]
  congr 1
  rw [filter_pair_single cs.subs sid cid _ h rfl]
  rfl

/-- C7 witness: subscriber 42, attached to conversation 7 of the fixture
channel, is delivered exactly the one message appended there. -/
theorem subscriber_delivery_exactly_once_witness :
    (wChannelSub.subs.filter (fun s => decide (s.id = 42))
      = [{ id := 42, conversation_id := 7 }]) ∧
    deliveredTo (appendMessage wChannelSub 7 "yo" SenderType.client 50 60) 42
      = deliveredTo wChannelSub 42 ++
        [{ id := 50, content := "yo", sender_type := SenderType.client,
           created_at := 60, conversation_id := 7 }] :=
  ⟨by decide,
   subscriber_delivery_exactly_once wChannelSub 42 7 50 60 "yo" SenderType.client
     (by decide)⟩

/-- C8: once removeChannel has released a subscriber's handle, an append
triggers no callback on it: its delivery sequence after the append equals the
sequence it had before cancellation. -/
theorem no_delivery_after_remove (cs : ChannelState) (sid cid fresh now : Nat)
    (content : String) (sender : SenderType) :
    deliveredTo (appendMessage (removeChannel cs sid) cid content sender fresh now) sid
      = deliveredTo cs sid := by
  simp only [deliveredTo, appendMessage, deliverInsert, removeChannel,
    List.filter_append, List.map_append]
  rw [filter_pair_nil _ sid _ (filter_not_id cs.subs sid)]
  simp

/-- C9: the inbox query's inner join (`messages!inner`) keeps only
conversations owning at least one message row, so a conversation with zero
messages — even one whose tutor_id is the requesting user — never appears in
the returned sequence. -/
theorem loadConversations_inner_join (st : Store) (userId : Nat) (c : Conversation)
    (h : msgsFor st c.id = []) :
    ∀ s ∈ loadConversations st userId, s.convo ≠ c := by
  intro s hs
  rcases List.mem_map.mp hs with ⟨c', hc', rfl⟩
  have hc'' := (orderByUpdatedAtDesc_perm _).mem_iff.mp hc'
  rcases List.mem_filter.mp hc'' with ⟨_, hne⟩
  intro heq
  have hcc : c' = c := heq
  rw [hcc, h] at hne
  simp at hne

/-- C9 witness: conversation 9 of the fixture store belongs to tutor 2 but has
no messages, and no summary returned for tutor 2 is that conversation. -/
theorem loadConversations_inner_join_witness :
    (msgsFor wStore wConvEmpty.id = []) ∧
    ∀ s ∈ loadConversations wStore 2, s.convo ≠ wConvEmpty :=
  ⟨by decide, loadConversations_inner_join wStore 2 wConvEmpty (by decide)⟩

/-- C10: the connect-payment split: the stored payments row satisfies
tutor_amount + platform_fee = amount; the two shares are the rounded 15% and
85% of hourlyRate · lessonQuantity · 100 (the code's `1 - platformFeePercent`
equals 85/100 exactly in the rational model); and the stored amount is exactly
the handler's totalAmount, so the split neither loses nor creates pence
relative to the stored total. -/
theorem payment_split_exact (hourlyRate : ℚ) (lessonQuantity : ℕ) :
    (paymentsInsert hourlyRate lessonQuantity).tutor_amount
        + (paymentsInsert hourlyRate lessonQuantity).platform_fee
      = (paymentsInsert hourlyRate lessonQuantity).amount ∧
    (paymentsInsert hourlyRate lessonQuantity).platform_fee
      = jsRound (hourlyRate * lessonQuantity * 100 * (15 / 100)) ∧
    (paymentsInsert hourlyRate lessonQuantity).tutor_amount
      = jsRound (hourlyRate * lessonQuantity * 100 * (85 / 100)) ∧
    (paymentsInsert hourlyRate lessonQuantity).amount
      = totalAmount hourlyRate lessonQuantity := by
  refine ⟨rfl, rfl, ?_, rfl⟩
  have hp : (1 - platformFeePercent : ℚ) = 85 / 100 := by
    norm_num [platformFeePercent]
  simp [paymentsInsert, tutorAmount, hp]

end OxbridgePrep
